import Mathlib

/-!
Shallow embedding of src/met_scraper.py (class MetScraper) and proofs about it.

Python dictionaries with optional fields are embedded as structures of Option
fields; exceptions become an Except monad over PyError; the network and the
filesystem are an explicit environment Env; observable side effects of the
processing loop (fetch calls, appends to the metadata collection, writes of the
durable output file, rate-limit sleeps) are recorded in an event trace.
-/

namespace MetScraper

/-- Python exceptions that can escape the functions we model:
ValueError from load_object_ids, ZeroDivisionError from the modulo in
process_artworks, OSError from the file write in download_image. -/
inductive PyError where
  | valueError
  | zeroDivisionError
  | osError
deriving DecidableEq, Repr

/-- The raw API response dictionary, restricted to the keys the scraper reads
(src/met_scraper.py lines 144-163, 204, 209, 217). Every key may be absent. -/
structure RawRecord where
  objectID : Option Int
  title : Option String
  artistDisplayName : Option String
  artistDisplayBio : Option String
  objectDate : Option String
  objectName : Option String
  medium : Option String
  dimensions : Option String
  department : Option String
  culture : Option String
  period : Option String
  dynasty : Option String
  creditLine : Option String
  objectURL : Option String
  isPublicDomain : Option Bool
  primaryImage : Option String
  primaryImageSmall : Option String
  tags : Option (List String)
deriving DecidableEq, Repr

/-- The dictionary built by extract_metadata (lines 144-164): every key is
always present in the output. -/
structure PersistedRecord where
  objectID : Option Int
  title : String
  artistDisplayName : String
  artistDisplayBio : String
  objectDate : String
  objectName : String
  medium : String
  dimensions : String
  department : String
  culture : String
  period : String
  dynasty : String
  creditLine : String
  objectURL : String
  isPublicDomain : Bool
  primaryImage : String
  primaryImageSmall : String
  localImage : Option String
  tags : List String
deriving DecidableEq, Repr

/-- Embedding of MetScraper._extract_metadata (lines 133-164): each field is
read with dict.get and the literal default written in the source. -/
def extract_metadata (artwork_data : RawRecord) (local_image_filename : Option String) :
    PersistedRecord where
  objectID := artwork_data.objectID
  title := artwork_data.title.getD "Untitled"
  artistDisplayName := artwork_data.artistDisplayName.getD ""
  artistDisplayBio := artwork_data.artistDisplayBio.getD ""
  objectDate := artwork_data.objectDate.getD ""
  objectName := artwork_data.objectName.getD ""
  medium := artwork_data.medium.getD ""
  dimensions := artwork_data.dimensions.getD ""
  department := artwork_data.department.getD ""
  culture := artwork_data.culture.getD ""
  period := artwork_data.period.getD ""
  dynasty := artwork_data.dynasty.getD ""
  creditLine := artwork_data.creditLine.getD ""
  objectURL := artwork_data.objectURL.getD ""
  isPublicDomain := artwork_data.isPublicDomain.getD false
  primaryImage := artwork_data.primaryImage.getD ""
  primaryImageSmall := artwork_data.primaryImageSmall.getD ""
  localImage := local_image_filename
  tags := artwork_data.tags.getD []

/-- The characters of the source path segment replaced by
get_optimized_image_url (line 78). -/
def origSeg : List Char := ['/', 'o', 'r', 'i', 'g', 'i', 'n', 'a', 'l', '/']

/-- The characters of the replacement path segment (line 78). -/
def webSeg : List Char := ['/', 'w', 'e', 'b', '-', 'l', 'a', 'r', 'g', 'e', '/']

/-- Python str.replace specialised to the fixed pattern origSeg: scans left to
right, replacing each non-overlapping occurrence of origSeg by webSeg. The
fuel argument makes the recursion structural; each step consumes at least one
character, so fuel equal to the length of the list never runs out (the fuel
irrelevance lemma replaceOrigSegAux_fuel below makes this precise). -/
def replaceOrigSegAux : Nat → List Char → List Char
  | _, [] => []
  | 0, s => s
  | fuel + 1, c :: rest =>
    if origSeg.isPrefixOf (c :: rest) then
      webSeg ++ replaceOrigSegAux fuel (rest.drop (origSeg.length - 1))
    else
      c :: replaceOrigSegAux fuel rest

/-- Python ("x" : str).replace on the fixed segments of line 78. -/
def replaceOrigSeg (s : List Char) : List Char := replaceOrigSegAux s.length s

/-- Embedding of MetScraper._get_optimized_image_url (lines 74-78). -/
def get_optimized_image_url (original_url : String) : String :=
  if original_url = "" then ""
  else ⟨replaceOrigSeg original_url.data⟩

/-- Python substring membership test: pat occurring in s, written `pat in s`
in the source. -/
def listContains (pat : List Char) : List Char → Bool
  | [] => pat.isEmpty
  | c :: rest => pat.isPrefixOf (c :: rest) || listContains pat rest

/-- Python `pat in s` on strings. -/
def strContains (s pat : String) : Bool := listContains pat.data s.data

/-- Python s.endswith(pat). -/
def strEndsWith (s pat : String) : Bool := pat.data.isSuffixOf s.data

/-- Outcome presented by the world to one image download attempt
(lines 107-124): the GET raises a requests.RequestException, or the GET
succeeds and the filesystem write raises an OSError, or everything succeeds
and the response carries the given content-type header. -/
inductive DlOutcome where
  | transportErr
  | fsErr
  | netOk (content_type : String)
deriving DecidableEq, Repr

/-- The external world: what requests.get returns for a metadata fetch of an
ID, and what happens when an image URL is downloaded for an ID. -/
structure Env where
  fetch : Int → Option RawRecord
  download : String → Int → DlOutcome

/-- Embedding of MetScraper._download_image (lines 96-131). An empty URL
returns None without any network call; a requests.RequestException is caught
and maps to None; an OSError from the file write is NOT caught (the except
clause at line 129 only matches requests.exceptions.RequestException) and
escapes as an exception; on success the chosen filename is the object ID
followed by the extension inferred from content type and URL (lines 110-119).
-/
def download_image (env : Env) (image_url : String) (object_id : Int) :
    Except PyError (Option String) :=
  if image_url = "" then .ok none
  else
    match env.download image_url object_id with
    | .transportErr => .ok none
    | .fsErr => .error .osError
    | .netOk content_type =>
      let ext :=
        if strContains content_type "jpeg" || strContains content_type "jpg"
            || strEndsWith image_url ".jpg" then ".jpg"
        else if strContains content_type "png" || strEndsWith image_url ".png" then ".png"
        else ".jpg"
      .ok (some (toString object_id ++ ext))

/-- State of the durable metadata output file as found at startup. -/
inductive FileState where
  | absent
  | unparsable
  | content (data : List PersistedRecord)
deriving DecidableEq, Repr

/-- Embedding of MetScraper._load_existing_metadata (lines 46-56): a missing
file (FileNotFoundError) and an unparsable file (json.JSONDecodeError) both
return the empty list; the function is total, so neither condition can abort
the run. -/
def load_existing_metadata : FileState → List PersistedRecord
  | .absent => []
  | .unparsable => []
  | .content data => data

/-- The scraper's mutable state: self.metadata and self.processed_ids
(lines 43-44). The Python set is embedded as a list used only through
membership; its elements are the objectID values of metadata entries at
startup, hence Option Int. -/
structure ScraperState where
  metadata : List PersistedRecord
  processed_ids : List (Option Int)
deriving DecidableEq, Repr

/-- Embedding of the tail of MetScraper.__init__ (lines 43-44): load the
existing metadata and derive processed_ids from the objectID of each entry. -/
def initial_state (fs : FileState) : ScraperState :=
  let metadata := load_existing_metadata fs
  ⟨metadata, metadata.map (·.objectID)⟩

/-- Shape of the parsed input ID file: a JSON array of IDs, an object with an
objectIDs key holding the IDs, or anything else. -/
inductive InputData where
  | array (ids : List Int)
  | objWithIds (ids : List Int)
  | malformed
deriving DecidableEq, Repr

/-- Embedding of MetScraper._load_object_ids (lines 58-72): lists and objects
with an objectIDs key yield their IDs; anything else raises ValueError, which
the except clause re-raises. -/
def load_object_ids : InputData → Except PyError (List Int)
  | .array ids => .ok ids
  | .objWithIds ids => .ok ids
  | .malformed => .error .valueError

/-- Observable side effects of the processing loop: a metadata fetch call for
an ID (line 196), an append of a record to self.metadata attributed to the
loop's object_id (line 222), a write of the durable output file by
save_metadata (lines 227 and 233), and a rate-limit sleep (lines 200, 206,
211, 230). -/
inductive Event where
  | fetch (id : Int)
  | append (id : Int)
  | save
  | sleep
deriving DecidableEq, Repr

/-- One iteration of the for loop in MetScraper.process_artworks
(lines 187-230), returning the events it performs and either the updated
state or the Python exception that escapes it. Mirrors the source in order:
already-processed skip (no sleep, lines 189-191), fetch (line 196),
missing-data skip (lines 198-201), public-domain check (lines 204-207),
primary-image check (lines 209-212), optional image download (lines 214-218,
an uncaught OSError aborts), append to metadata and processed_ids
(lines 221-223), checkpoint save when the new length is a multiple of
save_frequency (lines 226-227, a zero save_frequency raises
ZeroDivisionError at the modulo), final sleep (line 230). -/
def process_step (env : Env) (download_images : Bool) (save_frequency : Nat)
    (st : ScraperState) (object_id : Int) : List Event × Except PyError ScraperState :=
  if some object_id ∈ st.processed_ids then
    ([], .ok st)
  else
    match env.fetch object_id with
    | none => ([.fetch object_id, .sleep], .ok st)
    | some artwork_data =>
      if artwork_data.isPublicDomain.getD false = false then
        ([.fetch object_id, .sleep], .ok st)
      else if artwork_data.primaryImage.getD "" = "" then
        ([.fetch object_id, .sleep], .ok st)
      else
        let dl : Except PyError (Option String) :=
          if download_images then
            download_image env
              (get_optimized_image_url (artwork_data.primaryImage.getD "")) object_id
          else .ok none
        match dl with
        | .error e => ([.fetch object_id], .error e)
        | .ok local_image_filename =>
          let st' : ScraperState :=
            ⟨st.metadata ++ [extract_metadata artwork_data local_image_filename],
             st.processed_ids ++ [some object_id]⟩
          if save_frequency = 0 then
            ([.fetch object_id, .append object_id], .error .zeroDivisionError)
          else if st'.metadata.length % save_frequency = 0 then
            ([.fetch object_id, .append object_id, .save, .sleep], .ok st')
          else
            ([.fetch object_id, .append object_id, .sleep], .ok st')

/-- The for loop of process_artworks over the whole ID list, accumulating the
event trace; an exception escaping an iteration aborts the loop, keeping the
events performed up to that point. -/
def process_loop (env : Env) (download_images : Bool) (save_frequency : Nat) :
    ScraperState → List Int → List Event × Except PyError ScraperState
  | st, [] => ([], .ok st)
  | st, object_id :: rest =>
    match process_step env download_images save_frequency st object_id with
    | (ev, .error e) => (ev, .error e)
    | (ev, .ok st') =>
      match process_loop env download_images save_frequency st' rest with
      | (ev2, r) => (ev ++ ev2, r)

/-- Embedding of MetScraper.process_artworks (lines 172-238): load the input
ID list (aborting with the exception before any processing when it is
malformed), run the loop, and perform the unconditional final save
(line 233). -/
def process_artworks (env : Env) (input : InputData) (download_images : Bool)
    (save_frequency : Nat) (st : ScraperState) :
    List Event × Except PyError ScraperState :=
  match load_object_ids input with
  | .error e => ([], .error e)
  | .ok object_ids =>
    match process_loop env download_images save_frequency st object_ids with
    | (ev, .error e) => (ev, .error e)
    | (ev, .ok st') => (ev ++ [.save], .ok st')

/-! ### Helper lemmas about the URL rewrite -/

lemma replaceOrigSegAux_nil (fuel : Nat) : replaceOrigSegAux fuel [] = [] := by
  cases fuel <;> rfl

lemma replaceOrigSegAux_cons (fuel : Nat) (c : Char) (rest : List Char) :
    replaceOrigSegAux (fuel + 1) (c :: rest) =
      if origSeg.isPrefixOf (c :: rest) then
        webSeg ++ replaceOrigSegAux fuel (rest.drop (origSeg.length - 1))
      else c :: replaceOrigSegAux fuel rest := rfl

lemma replaceOrigSegAux_fuel :
    ∀ fuel fuel' s, s.length ≤ fuel → s.length ≤ fuel' →
      replaceOrigSegAux fuel s = replaceOrigSegAux fuel' s := by
  intro fuel
  induction fuel with
  | zero =>
    intro fuel' s hs _
    have : s = [] := List.eq_nil_of_length_eq_zero (Nat.le_zero.mp hs)
    subst this
    simp [replaceOrigSegAux_nil]
  | succ f ih =>
    intro fuel' s hs hs'
    match s with
    | [] => simp [replaceOrigSegAux_nil]
    | c :: rest =>
      match fuel' with
      | 0 => simp at hs'
      | f' + 1 =>
        rw [replaceOrigSegAux_cons, replaceOrigSegAux_cons]
        by_cases hpre : origSeg.isPrefixOf (c :: rest)
        · rw [if_pos hpre, if_pos hpre]
          have hd : (rest.drop (origSeg.length - 1)).length ≤ f := by
            simp only [List.length_drop]
            simp only [List.length_cons] at hs
            omega
          have hd' : (rest.drop (origSeg.length - 1)).length ≤ f' := by
            simp only [List.length_drop]
            simp only [List.length_cons] at hs'
            omega
          rw [ih f' _ hd hd']
        · rw [if_neg hpre, if_neg hpre]
          have hr : rest.length ≤ f := by
            simp only [List.length_cons] at hs
            omega
          have hr' : rest.length ≤ f' := by
            simp only [List.length_cons] at hs'
            omega
          rw [ih f' _ hr hr']

lemma replaceOrigSegAux_not_contains :
    ∀ fuel s, s.length ≤ fuel → listContains origSeg s = false →
      replaceOrigSegAux fuel s = s := by
  intro fuel
  induction fuel with
  | zero =>
    intro s hs _
    have : s = [] := List.eq_nil_of_length_eq_zero (Nat.le_zero.mp hs)
    subst this
    rfl
  | succ f ih =>
    intro s hs hc
    match s with
    | [] => rfl
    | c :: rest =>
      simp only [listContains, Bool.or_eq_false_iff] at hc
      rw [replaceOrigSegAux_cons, if_neg (by simp [hc.1])]
      have hr : rest.length ≤ f := by
        simp only [List.length_cons] at hs
        omega
      rw [ih rest hr hc.2]

lemma replaceOrigSeg_not_contains (s : List Char) (h : listContains origSeg s = false) :
    replaceOrigSeg s = s :=
  replaceOrigSegAux_not_contains s.length s le_rfl h

lemma replaceOrigSeg_orig_append (b : List Char) :
    replaceOrigSeg (origSeg ++ b) = webSeg ++ replaceOrigSeg b := by
  have hlen : (origSeg ++ b).length = b.length + 9 + 1 := by
    simp [origSeg]
  rw [replaceOrigSeg, hlen]
  have hshape : origSeg ++ b =
      '/' :: ((['o', 'r', 'i', 'g', 'i', 'n', 'a', 'l', '/'] : List Char) ++ b) := rfl
  rw [hshape, replaceOrigSegAux_cons]
  have hpre : origSeg.isPrefixOf
      ('/' :: ((['o', 'r', 'i', 'g', 'i', 'n', 'a', 'l', '/'] : List Char) ++ b)) = true := by
    rw [show ('/' :: ((['o', 'r', 'i', 'g', 'i', 'n', 'a', 'l', '/'] : List Char) ++ b))
          = origSeg ++ b from rfl]
    rw [List.isPrefixOf_iff_prefix]
    exact List.prefix_append _ _
  rw [if_pos hpre]
  have hdrop : (((['o', 'r', 'i', 'g', 'i', 'n', 'a', 'l', '/'] : List Char) ++ b)).drop
      (origSeg.length - 1) = b := by
    rw [show origSeg.length - 1
          = (['o', 'r', 'i', 'g', 'i', 'n', 'a', 'l', '/'] : List Char).length from rfl]
    exact List.drop_left _ _
  rw [hdrop, replaceOrigSeg,
    replaceOrigSegAux_fuel (b.length + 9) b.length b (by omega) le_rfl]

/-! ### Concrete fixtures used by counterexamples and witnesses -/

/-- A raw API record with every optional key absent. -/
def emptyRaw : RawRecord :=
  ⟨none, none, none, none, none, none, none, none, none, none, none, none, none,
   none, none, none, none, none⟩

/-- A world in which the URL "t" fails its download with a transport error and
every other URL fails with a filesystem write error. -/
def envMixed : Env :=
  ⟨fun _ => none, fun url _ => if url = "t" then .transportErr else .fsErr⟩

/-- A raw record that is public domain and carries a primary image URL, with
every other key absent. -/
def rawC1 : RawRecord :=
  { emptyRaw with isPublicDomain := some true, primaryImage := some "a/original/b.jpg" }

/-- A world in which fetching ID 1 yields rawC1 and every image download
fails with a caught transport error. -/
def envC1 : Env :=
  ⟨fun i => if i = 1 then some rawC1 else none, fun _ _ => .transportErr⟩

/-! ### Characterization of one loop iteration -/

/-- Exhaustive case analysis of process_step: an iteration either skips an
already-processed ID with no events, or fetches and then skips, aborts with
an exception, or appends exactly one record for the loop ID. -/
lemma process_step_cases (env : Env) (dl : Bool) (f : Nat) (st : ScraperState) (id : Int) :
    (some id ∈ st.processed_ids ∧ process_step env dl f st id = ([], .ok st)) ∨
    (some id ∉ st.processed_ids ∧
      (process_step env dl f st id = ([.fetch id, .sleep], .ok st) ∨
       (∃ e, process_step env dl f st id = ([.fetch id], .error e)) ∨
       (f = 0 ∧ process_step env dl f st id =
          ([.fetch id, .append id], .error .zeroDivisionError)) ∨
       (∃ raw loc ev,
         (ev = [.fetch id, .append id, .save, .sleep] ∨
          ev = [.fetch id, .append id, .sleep]) ∧
         process_step env dl f st id =
           (ev, .ok ⟨st.metadata ++ [extract_metadata raw loc],
                     st.processed_ids ++ [some id]⟩)))) := by
  by_cases hmem : some id ∈ st.processed_ids
  · exact Or.inl ⟨hmem, by simp [process_step, hmem]⟩
  · refine Or.inr ⟨hmem, ?_⟩
    rcases hfetch : env.fetch id with _ | raw
    · exact Or.inl (by simp [process_step, hmem, hfetch])
    · by_cases hpub : raw.isPublicDomain.getD false = false
      · exact Or.inl (by simp [process_step, hmem, hfetch, hpub])
      · by_cases himg : raw.primaryImage.getD "" = ""
        · exact Or.inl (by simp [process_step, hmem, hfetch, hpub, himg])
        · by_cases hdlb : dl
          · rcases hdl : download_image env
                (get_optimized_image_url (raw.primaryImage.getD "")) id with e | loc
            · exact Or.inr (Or.inl
                ⟨e, by simp [process_step, hmem, hfetch, hpub, himg, hdlb, hdl]⟩)
            · by_cases hf : f = 0
              · exact Or.inr (Or.inr (Or.inl
                  ⟨hf, by simp [process_step, hmem, hfetch, hpub, himg, hdlb, hdl, hf]⟩))
              · by_cases hmod : (st.metadata.length + 1) % f = 0
                · exact Or.inr (Or.inr (Or.inr ⟨raw, loc, _, Or.inl rfl,
                    by simp [process_step, hmem, hfetch, hpub, himg, hdlb, hdl, hf, hmod]⟩))
                · exact Or.inr (Or.inr (Or.inr ⟨raw, loc, _, Or.inr rfl,
                    by simp [process_step, hmem, hfetch, hpub, himg, hdlb, hdl, hf, hmod]⟩))
          · by_cases hf : f = 0
            · exact Or.inr (Or.inr (Or.inl
                ⟨hf, by simp [process_step, hmem, hfetch, hpub, himg, hdlb, hf]⟩))
            · by_cases hmod : (st.metadata.length + 1) % f = 0
              · exact Or.inr (Or.inr (Or.inr ⟨raw, none, _, Or.inl rfl,
                  by simp [process_step, hmem, hfetch, hpub, himg, hdlb, hf, hmod]⟩))
              · exact Or.inr (Or.inr (Or.inr ⟨raw, none, _, Or.inr rfl,
                  by simp [process_step, hmem, hfetch, hpub, himg, hdlb, hf, hmod]⟩))

/-- Facts about a normally-completing iteration: the processed-ID set grows
monotonically, a newly processed ID has an append event, an append event
implies the ID was new and is processed afterwards, at most one append is
emitted, and a fetch only happens for an unprocessed ID. -/
lemma process_step_ok_facts {env : Env} {dl : Bool} {f : Nat} {st : ScraperState}
    {id : Int} {ev : List Event} {st' : ScraperState}
    (h : process_step env dl f st id = (ev, .ok st')) :
    (∀ x, x ∈ st.processed_ids → x ∈ st'.processed_ids) ∧
    (∀ i : Int, some i ∈ st'.processed_ids →
      some i ∈ st.processed_ids ∨ Event.append i ∈ ev) ∧
    (∀ i : Int, Event.append i ∈ ev →
      some i ∉ st.processed_ids ∧ some i ∈ st'.processed_ids) ∧
    (∀ i : Int, ev.count (Event.append i) ≤ 1) ∧
    (∀ i : Int, Event.fetch i ∈ ev → some i ∉ st.processed_ids) := by
  rcases process_step_cases env dl f st id with ⟨hmem, heq⟩ | ⟨hmem, hcase⟩
  · rw [heq] at h
    obtain ⟨rfl, rfl⟩ : [] = ev ∧ st = st' := by simpa using h
    refine ⟨fun x hx => hx, fun i hi => Or.inl hi, ?_, ?_, ?_⟩ <;> intro i <;> simp
  · rcases hcase with heq | ⟨e, heq⟩ | ⟨hf, heq⟩ | ⟨raw, loc, ev0, hev0, heq⟩
    · rw [heq] at h
      obtain ⟨rfl, rfl⟩ : [Event.fetch id, Event.sleep] = ev ∧ st = st' := by simpa using h
      refine ⟨fun x hx => hx, fun i hi => Or.inl hi, ?_, ?_, ?_⟩ <;> intro i
      · intro hi; simp at hi
      · simp
      · intro hi
        simp at hi
        subst hi
        exact hmem
    · rw [heq] at h; simp at h
    · rw [heq] at h; simp at h
    · rw [heq] at h
      obtain ⟨rfl, rfl⟩ : ev0 = ev ∧
          (⟨st.metadata ++ [extract_metadata raw loc],
            st.processed_ids ++ [some id]⟩ : ScraperState) = st' := by simpa using h
      have hmono : ∀ x, x ∈ st.processed_ids →
          x ∈ st.processed_ids ++ [some id] := fun x hx => List.mem_append_left _ hx
      have hsrc : ∀ i : Int, some i ∈ st.processed_ids ++ [some id] →
          some i ∈ st.processed_ids ∨ i = id := by
        intro i hi
        rcases List.mem_append.mp hi with hi | hi
        · exact Or.inl hi
        · simp only [List.mem_singleton, Option.some.injEq] at hi
          exact Or.inr hi
      rcases hev0 with rfl | rfl
      · refine ⟨hmono, ?_, ?_, ?_, ?_⟩
        · intro i hi
          rcases hsrc i hi with hi | rfl
          · exact Or.inl hi
          · exact Or.inr (by simp)
        · intro i hi
          simp at hi
          subst hi
          exact ⟨hmem, by simp⟩
        · intro i
          by_cases hii : i = id
          · subst hii; simp
          · have hni : Event.append i ∉
                [Event.fetch id, Event.append id, Event.save, Event.sleep] := by
              simp [hii]
            simp [List.count_eq_zero.mpr hni]
        · intro i hi
          simp at hi
          subst hi
          exact hmem
      · refine ⟨hmono, ?_, ?_, ?_, ?_⟩
        · intro i hi
          rcases hsrc i hi with hi | rfl
          · exact Or.inl hi
          · exact Or.inr (by simp)
        · intro i hi
          simp at hi
          subst hi
          exact ⟨hmem, by simp⟩
        · intro i
          by_cases hii : i = id
          · subst hii; simp
          · have hni : Event.append i ∉
                [Event.fetch id, Event.append id, Event.sleep] := by
              simp [hii]
            simp [List.count_eq_zero.mpr hni]
        · intro i hi
          simp at hi
          subst hi
          exact hmem

/-- Facts about an iteration aborted by an exception: its trace fetches and
appends only for an unprocessed loop ID, and appends at most once. -/
lemma process_step_error_facts {env : Env} {dl : Bool} {f : Nat} {st : ScraperState}
    {id : Int} {ev : List Event} {e : PyError}
    (h : process_step env dl f st id = (ev, .error e)) :
    (∀ i : Int, Event.fetch i ∈ ev → some i ∉ st.processed_ids) ∧
    (∀ i : Int, Event.append i ∈ ev → some i ∉ st.processed_ids) ∧
    (∀ i : Int, ev.count (Event.append i) ≤ 1) := by
  rcases process_step_cases env dl f st id with ⟨hmem, heq⟩ | ⟨hmem, hcase⟩
  · rw [heq] at h; simp at h
  · rcases hcase with heq | ⟨e', heq⟩ | ⟨hf, heq⟩ | ⟨raw, loc, ev0, hev0, heq⟩
    · rw [heq] at h; simp at h
    · rw [heq] at h
      obtain ⟨rfl, rfl⟩ : [Event.fetch id] = ev ∧ e' = e := by simpa using h
      refine ⟨?_, ?_, ?_⟩ <;> intro i
      · intro hi
        simp at hi
        subst hi
        exact hmem
      · intro hi; simp at hi
      · simp
    · rw [heq] at h
      obtain ⟨rfl, -⟩ : [Event.fetch id, Event.append id] = ev ∧ _ = e := by simpa using h
      refine ⟨?_, ?_, ?_⟩ <;> intro i
      · intro hi
        simp at hi
        subst hi
        exact hmem
      · intro hi
        simp only [List.mem_cons, Event.append.injEq] at hi
        rcases hi with hi | hi | hi
        · simp at hi
        · subst hi; exact hmem
        · simp at hi
      · by_cases hii : i = id
        · subst hii; simp
        · have hni : Event.append i ∉ [Event.fetch id, Event.append id] := by
            simp [hii]
          simp [List.count_eq_zero.mpr hni]
    · rcases hev0 with rfl | rfl <;> (rw [heq] at h; simp at h)

/-! ### Loop lemmas -/

/-- Over a whole loop, each ID is appended at most once, and never if it was
already in the processed-ID set. -/
lemma process_loop_count (env : Env) (dl : Bool) (f : Nat) :
    ∀ (ids : List Int) (st : ScraperState) (i : Int),
      (some i ∈ st.processed_ids →
        (process_loop env dl f st ids).1.count (Event.append i) = 0) ∧
      (process_loop env dl f st ids).1.count (Event.append i) ≤ 1 := by
  intro ids
  induction ids with
  | nil => intro st i; constructor <;> simp [process_loop]
  | cons id rest ih =>
    intro st i
    rcases hstep : process_step env dl f st id with ⟨ev, r⟩
    rcases r with e | st'
    · have hloop : process_loop env dl f st (id :: rest) = (ev, .error e) := by
        simp [process_loop, hstep]
      have hfacts := process_step_error_facts hstep
      rw [hloop]
      exact ⟨fun hi => List.count_eq_zero.mpr (fun hm => (hfacts.2.1 i hm) hi),
             hfacts.2.2 i⟩
    · rcases hrest : process_loop env dl f st' rest with ⟨ev2, r2⟩
      have hloop : process_loop env dl f st (id :: rest) = (ev ++ ev2, r2) := by
        simp [process_loop, hstep, hrest]
      obtain ⟨hmono, -, happ, hcnt, -⟩ := process_step_ok_facts hstep
      have ihr := ih st' i
      rw [hrest] at ihr
      rw [hloop]
      simp only [List.count_append]
      constructor
      · intro hi
        have h1 : ev.count (Event.append i) = 0 :=
          List.count_eq_zero.mpr (fun hm => ((happ i hm).1) hi)
        have h2 : ev2.count (Event.append i) = 0 := ihr.1 (hmono _ hi)
        omega
      · by_cases hi : some i ∈ st.processed_ids
        · have h1 : ev.count (Event.append i) = 0 :=
            List.count_eq_zero.mpr (fun hm => ((happ i hm).1) hi)
          have h2 : ev2.count (Event.append i) = 0 := ihr.1 (hmono _ hi)
          omega
        · by_cases hm : Event.append i ∈ ev
          · have h2 : ev2.count (Event.append i) = 0 := ihr.1 ((happ i hm).2)
            have h1 : ev.count (Event.append i) ≤ 1 := hcnt i
            omega
          · have h1 : ev.count (Event.append i) = 0 := List.count_eq_zero.mpr hm
            have h2 : ev2.count (Event.append i) ≤ 1 := ihr.2
            omega

/-- Over a whole loop, no fetch event is emitted for an ID already in the
processed-ID set at the start. -/
lemma process_loop_no_fetch (env : Env) (dl : Bool) (f : Nat) :
    ∀ (ids : List Int) (st : ScraperState) (i : Int), some i ∈ st.processed_ids →
      Event.fetch i ∉ (process_loop env dl f st ids).1 := by
  intro ids
  induction ids with
  | nil => intro st i hi; simp [process_loop]
  | cons id rest ih =>
    intro st i hi
    rcases hstep : process_step env dl f st id with ⟨ev, r⟩
    rcases r with e | st'
    · have hloop : process_loop env dl f st (id :: rest) = (ev, .error e) := by
        simp [process_loop, hstep]
      rw [hloop]
      exact fun hm => (process_step_error_facts hstep).1 i hm hi
    · rcases hrest : process_loop env dl f st' rest with ⟨ev2, r2⟩
      have hloop : process_loop env dl f st (id :: rest) = (ev ++ ev2, r2) := by
        simp [process_loop, hstep, hrest]
      rw [hloop]
      simp only [List.mem_append]
      rintro (hm | hm)
      · exact (process_step_ok_facts hstep).2.2.2.2 i hm hi
      · have hnext := ih st' i ((process_step_ok_facts hstep).1 _ hi)
        rw [hrest] at hnext
        exact hnext hm

/-- Over a whole loop that completes normally, an ID in the final
processed-ID set was there at the start or has an append event in the trace.
-/
lemma process_loop_sources (env : Env) (dl : Bool) (f : Nat) :
    ∀ (ids : List Int) (st : ScraperState) (ev : List Event) (stf : ScraperState),
      process_loop env dl f st ids = (ev, .ok stf) →
      ∀ i : Int, some i ∈ stf.processed_ids →
        some i ∈ st.processed_ids ∨ Event.append i ∈ ev := by
  intro ids
  induction ids with
  | nil =>
    intro st ev stf h i hi
    obtain ⟨rfl, rfl⟩ : [] = ev ∧ st = stf := by simpa [process_loop] using h
    exact Or.inl hi
  | cons id rest ih =>
    intro st ev stf h i hi
    rcases hstep : process_step env dl f st id with ⟨ev1, r⟩
    rcases r with e | st'
    · have hloop : process_loop env dl f st (id :: rest) = (ev1, .error e) := by
        simp [process_loop, hstep]
      rw [hloop] at h
      simp at h
    · rcases hrest : process_loop env dl f st' rest with ⟨ev2, r2⟩
      have hloop : process_loop env dl f st (id :: rest) = (ev1 ++ ev2, r2) := by
        simp [process_loop, hstep, hrest]
      rw [hloop] at h
      obtain ⟨rfl, hr2⟩ : ev1 ++ ev2 = ev ∧ r2 = .ok stf := by simpa using h
      rcases ih st' ev2 stf (hr2 ▸ hrest) i hi with hin | hin
      · rcases (process_step_ok_facts hstep).2.1 i hin with h' | h'
        · exact Or.inl h'
        · exact Or.inr (List.mem_append_left _ h')
      · exact Or.inr (List.mem_append_right _ hin)

/-! ### Claims -/

/-- Claim C2, counterexample. The claim says every absent source field is
given the default empty string, empty list, or false. On a record whose title
key is absent, extract_metadata (lines 144-164) fills the title with the
string "Untitled", which is not the empty string; and the absent objectID is
filled with None, not with any of the three claimed defaults. -/
theorem C2_counterexample :
    (extract_metadata emptyRaw none).title = "Untitled" ∧
    ("Untitled" : String) ≠ "" ∧
    (extract_metadata emptyRaw none).objectID = none := by
  refine ⟨rfl, by decide, rfl⟩

/-- Claim C2, amended: the metadata projection populates every field of the
persisted record (the output structure always carries all its fields);
an absent source field is substituted by the empty string, the empty list, or
false, except that an absent title is substituted by the string "Untitled"
and an absent objectID is carried through as the null value None. -/
theorem C2_amended_theorem (raw : RawRecord) (loc : Option String) :
    (extract_metadata raw loc).objectID = raw.objectID ∧
    (raw.title = none → (extract_metadata raw loc).title = "Untitled") ∧
    (raw.artistDisplayName = none → (extract_metadata raw loc).artistDisplayName = "") ∧
    (raw.artistDisplayBio = none → (extract_metadata raw loc).artistDisplayBio = "") ∧
    (raw.objectDate = none → (extract_metadata raw loc).objectDate = "") ∧
    (raw.objectName = none → (extract_metadata raw loc).objectName = "") ∧
    (raw.medium = none → (extract_metadata raw loc).medium = "") ∧
    (raw.dimensions = none → (extract_metadata raw loc).dimensions = "") ∧
    (raw.department = none → (extract_metadata raw loc).department = "") ∧
    (raw.culture = none → (extract_metadata raw loc).culture = "") ∧
    (raw.period = none → (extract_metadata raw loc).period = "") ∧
    (raw.dynasty = none → (extract_metadata raw loc).dynasty = "") ∧
    (raw.creditLine = none → (extract_metadata raw loc).creditLine = "") ∧
    (raw.objectURL = none → (extract_metadata raw loc).objectURL = "") ∧
    (raw.isPublicDomain = none → (extract_metadata raw loc).isPublicDomain = false) ∧
    (raw.primaryImage = none → (extract_metadata raw loc).primaryImage = "") ∧
    (raw.primaryImageSmall = none → (extract_metadata raw loc).primaryImageSmall = "") ∧
    (raw.tags = none → (extract_metadata raw loc).tags = []) ∧
    (extract_metadata raw loc).localImage = loc := by
  refine ⟨rfl, ?_, ?_, ?_, ?_, ?_, ?_, ?_, ?_, ?_, ?_, ?_, ?_, ?_, ?_, ?_, ?_, ?_, rfl⟩
  all_goals intro h
  all_goals simp [extract_metadata, h]

/-- Claim C2, witness: the amended theorem applied to the record with every
key absent and no local image. -/
theorem C2_amended_witness :
    (extract_metadata emptyRaw none).title = "Untitled" ∧
    (extract_metadata emptyRaw none).artistDisplayName = "" ∧
    (extract_metadata emptyRaw none).isPublicDomain = false ∧
    (extract_metadata emptyRaw none).tags = [] := by
  obtain ⟨-, h1, h2, -, -, -, -, -, -, -, -, -, -, -, h15, -, -, h18, -⟩ :=
    C2_amended_theorem emptyRaw none
  exact ⟨h1 rfl, h2 rfl, h15 rfl, h18 rfl⟩

/-- Claim C5: _load_existing_metadata (lines 46-56) returns the empty
collection both when the output file is absent (FileNotFoundError) and when
it is present but unparsable (json.JSONDecodeError); being a total function
into a plain list, neither condition can abort the run, and __init__ then
derives an empty processed-ID set, i.e. a fresh start. -/
theorem C5_theorem :
    load_existing_metadata .absent = [] ∧
    load_existing_metadata .unparsable = [] ∧
    initial_state .absent = ⟨[], []⟩ ∧
    initial_state .unparsable = ⟨[], []⟩ :=
  ⟨rfl, rfl, rfl, rfl⟩

/-- Claim C8: on a malformed input ID list (neither a JSON array nor an
object with the objectIDs key), _load_object_ids raises ValueError
(lines 58-72), process_artworks aborts before its loop (line 180), the
event trace is empty, so no ID is fetched and the durable output file is
never written. -/
theorem C8_theorem (env : Env) (download_images : Bool) (save_frequency : Nat)
    (st : ScraperState) :
    process_artworks env .malformed download_images save_frequency st =
      ([], .error .valueError) := rfl

/-- Claim C6, counterexample. The claim says the download operation never
raises an error that escapes; but the except clause at line 129 only catches
requests.exceptions.RequestException, so an OSError raised by the filesystem
write at lines 122-124 escapes _download_image as an exception. -/
theorem C6_counterexample :
    download_image envMixed "f" 7 = .error .osError := rfl

/-- Claim C6, amended: an empty URL yields None without any network call;
a transport or timeout error (requests.RequestException) during the download
is caught and maps to the non-fatal per-ID result None; but a
filesystem-write error during the write of the response body is not caught
and escapes _download_image as an exception (OSError). -/
theorem C6_amended_theorem (env : Env) (url : String) (id : Int) :
    download_image env "" id = .ok none ∧
    (env.download url id = .transportErr → download_image env url id = .ok none) ∧
    (url ≠ "" → env.download url id = .fsErr →
      download_image env url id = .error .osError) := by
  refine ⟨rfl, ?_, ?_⟩
  · intro h
    by_cases hu : url = ""
    · subst hu; rfl
    · simp [download_image, hu, h]
  · intro hu h
    simp [download_image, hu, h]

/-- Claim C6, witness: the amended theorem applied to the mixed world at the
URLs "t" (transport error, caught) and "f" (filesystem error, escaping). -/
theorem C6_amended_witness :
    download_image envMixed "t" 7 = .ok none ∧
    download_image envMixed "f" 7 = .error .osError := by
  refine ⟨(C6_amended_theorem envMixed "t" 7).2.1 rfl,
          (C6_amended_theorem envMixed "f" 7).2.2 (by decide) rfl⟩

/-- Claim C9: _get_optimized_image_url (lines 74-78) is a pure string
transform: an empty URL maps to the empty string; a URL without any
occurrence of the full-resolution segment "/original/" is returned unchanged;
and at an occurrence of "/original/" the display-resolution segment
"/web-large/" is substituted for it, the rest of the string being processed
identically. The result depends only on the input string: the embedding
takes no environment. -/
theorem C9_theorem :
    get_optimized_image_url "" = "" ∧
    (∀ s : String, listContains origSeg s.data = false → get_optimized_image_url s = s) ∧
    (∀ b : List Char, replaceOrigSeg (origSeg ++ b) = webSeg ++ replaceOrigSeg b) := by
  refine ⟨rfl, ?_, replaceOrigSeg_orig_append⟩
  intro s h
  by_cases hs : s = ""
  · subst hs; rfl
  · rw [get_optimized_image_url, if_neg hs, replaceOrigSeg_not_contains s.data h]

/-- Claim C9, witness: the theorem applied to a URL with no occurrence of the
segment and to a concrete suffix. -/
theorem C9_witness :
    get_optimized_image_url "abc" = "abc" ∧
    replaceOrigSeg (origSeg ++ ['x']) = webSeg ++ replaceOrigSeg ['x'] :=
  ⟨C9_theorem.2.1 "abc" (by decide), C9_theorem.2.2 ['x']⟩

/-- A persisted record whose objectID is 3, as found in a durable output
file at startup. -/
def persisted3 : PersistedRecord :=
  extract_metadata { emptyRaw with objectID := some 3 } none

/-- Claim C1, counterexample. The claim says a record whose image download
fails is dropped entirely and never appended. Running the pipeline on the
single ID 1 in a world where the fetch succeeds (public domain, with image)
and the download fails with a transport error: the record IS appended
(event trace contains the append, the final collection holds the record)
with localImage set to None — persisted without its asset, contradicting the
claim. -/
theorem C1_counterexample :
    process_artworks envC1 (.array [1]) true 10 ⟨[], []⟩ =
      ([Event.fetch 1, Event.append 1, Event.sleep, Event.save],
       .ok ⟨[extract_metadata rawC1 none], [some 1]⟩) ∧
    (extract_metadata rawC1 none).localImage = none ∧
    ([extract_metadata rawC1 none] : List PersistedRecord) ≠ [] := by
  refine ⟨rfl, rfl, by simp⟩

/-- Claim C1, amended: a record whose image download stage runs and fails
with a caught transport error is NOT dropped: _download_image returns None
(line 131), and process_artworks still appends the record to the in-memory
collection with localImage = None (lines 215-223), persisting the metadata
without its asset. (Only an uncaught filesystem error would abort the run,
and then nothing at all is appended.) -/
theorem C1_amended_theorem (env : Env) (f : Nat) (st : ScraperState) (id : Int)
    (raw : RawRecord)
    (hmem : some id ∉ st.processed_ids)
    (hfetch : env.fetch id = some raw)
    (hpub : raw.isPublicDomain = some true)
    (himg : raw.primaryImage.getD "" ≠ "")
    (hdl : env.download (get_optimized_image_url (raw.primaryImage.getD "")) id
            = .transportErr)
    (hf : f ≠ 0) :
    ∃ ev, process_step env true f st id =
        (ev, .ok ⟨st.metadata ++ [extract_metadata raw none],
                  st.processed_ids ++ [some id]⟩) ∧
      Event.append id ∈ ev ∧ (extract_metadata raw none).localImage = none := by
  have hdli : download_image env (get_optimized_image_url (raw.primaryImage.getD "")) id
      = .ok none := by
    by_cases hu : get_optimized_image_url (raw.primaryImage.getD "") = ""
    · rw [hu]; rfl
    · simp [download_image, hu, hdl]
  by_cases hmod : (st.metadata.length + 1) % f = 0
  · refine ⟨[Event.fetch id, Event.append id, Event.save, Event.sleep], ?_, by simp, rfl⟩
    simp [process_step, hmem, hfetch, hpub, himg, hdli, hf, hmod]
  · refine ⟨[Event.fetch id, Event.append id, Event.sleep], ?_, by simp, rfl⟩
    simp [process_step, hmem, hfetch, hpub, himg, hdli, hf, hmod]

/-- Claim C1, witness: the amended theorem applied to the concrete world
envC1 (fetch of ID 1 succeeds, download fails with a transport error). -/
theorem C1_amended_witness :
    ∃ ev, process_step envC1 true 10 ⟨[], []⟩ 1 =
        (ev, .ok ⟨[extract_metadata rawC1 none], [some 1]⟩) ∧
      Event.append 1 ∈ ev ∧ (extract_metadata rawC1 none).localImage = none :=
  C1_amended_theorem envC1 10 ⟨[], []⟩ 1 rawC1 (by simp) rfl rfl (by decide) rfl
    (by decide)

/-- Claim C3: for every input ID list (duplicates included), every world and
every starting state, the trace of process_artworks appends at most one
record for any given ID (once appended, the ID is in processed_ids, so every
later occurrence short-circuits at lines 189-191); and any ID in the final
processed-ID set either was there at startup or has an append event in the
trace — an ID is only added at line 223, immediately after its record is
appended at line 222, never merely after being fetched. -/
theorem C3_theorem (env : Env) (ids : List Int) (dl : Bool) (f : Nat)
    (st0 : ScraperState) :
    (∀ i : Int,
      (process_artworks env (.array ids) dl f st0).1.count (Event.append i) ≤ 1) ∧
    (∀ (stf : ScraperState) (i : Int),
      (process_artworks env (.array ids) dl f st0).2 = .ok stf →
      some i ∈ stf.processed_ids →
      some i ∈ st0.processed_ids ∨
        Event.append i ∈ (process_artworks env (.array ids) dl f st0).1) := by
  rcases hloop : process_loop env dl f st0 ids with ⟨ev, r⟩
  rcases r with e | stf'
  · have hpa : process_artworks env (.array ids) dl f st0 = (ev, .error e) := by
      simp [process_artworks, load_object_ids, hloop]
    rw [hpa]
    constructor
    · intro i
      have hc := (process_loop_count env dl f ids st0 i).2
      rw [hloop] at hc
      exact hc
    · intro stf i h2
      simp at h2
  · have hpa : process_artworks env (.array ids) dl f st0 =
        (ev ++ [Event.save], .ok stf') := by
      simp [process_artworks, load_object_ids, hloop]
    rw [hpa]
    constructor
    · intro i
      have hc := (process_loop_count env dl f ids st0 i).2
      rw [hloop] at hc
      have hc2 : ev.count (Event.append i) ≤ 1 := hc
      show (ev ++ [Event.save]).count (Event.append i) ≤ 1
      rw [List.count_append]
      have hz : ([Event.save].count (Event.append i)) = 0 := by simp
      omega
    · intro stf i h2 hi
      have hstf : stf' = stf := by simpa using h2
      subst hstf
      rcases process_loop_sources env dl f ids st0 ev stf' hloop i hi with h | h
      · exact Or.inl h
      · exact Or.inr (List.mem_append_left _ h)

/-- Claim C3, witness: the theorem applied to the concrete world envC1 on the
ID list containing only 1, starting from the empty state; the run appends
ID 1 exactly once, and the final processed set traces back to that append. -/
theorem C3_witness :
    (process_artworks envC1 (.array [1]) true 10 ⟨[], []⟩).1.count (Event.append 1) ≤ 1 ∧
    (some (1 : Int) ∈ (⟨[], []⟩ : ScraperState).processed_ids ∨
      Event.append 1 ∈ (process_artworks envC1 (.array [1]) true 10 ⟨[], []⟩).1) := by
  have h := C3_theorem envC1 [1] true 10 ⟨[], []⟩
  exact ⟨h.1 1, h.2 ⟨[extract_metadata rawC1 none], [some 1]⟩ 1 rfl (by simp)⟩

/-- Claim C4: for every ID in the processed-ID set derived from the durable
store at startup (lines 42-44), a run of the pipeline performs no fetch call
for that ID: the skip check at lines 189-191 short-circuits before the fetch
at line 196, and the processed set only grows during the run. -/
theorem C4_theorem (env : Env) (dl : Bool) (f : Nat) (fs : FileState)
    (ids : List Int) (i : Int)
    (h : some i ∈ (initial_state fs).processed_ids) :
    Event.fetch i ∉ (process_artworks env (.array ids) dl f (initial_state fs)).1 := by
  rcases hloop : process_loop env dl f (initial_state fs) ids with ⟨ev, r⟩
  have hnf := process_loop_no_fetch env dl f ids (initial_state fs) i h
  rw [hloop] at hnf
  rcases r with e | stf
  · have hpa : process_artworks env (.array ids) dl f (initial_state fs) =
        (ev, .error e) := by
      simp [process_artworks, load_object_ids, hloop]
    rw [hpa]
    exact hnf
  · have hpa : process_artworks env (.array ids) dl f (initial_state fs) =
        (ev ++ [Event.save], .ok stf) := by
      simp [process_artworks, load_object_ids, hloop]
    rw [hpa]
    simp only [List.mem_append]
    rintro (hm | hm)
    · exact hnf hm
    · simp at hm

/-- Claim C4, witness: a durable store already holding a record for ID 3; a
re-run over the list containing 3 performs no fetch call for it. -/
theorem C4_witness :
    Event.fetch 3 ∉
      (process_artworks envMixed (.array [3]) true 10
        (initial_state (.content [persisted3]))).1 :=
  C4_theorem envMixed true 10 (.content [persisted3]) [3] 3 (by decide)

/-- Claim C7, counterexample. The claim says the rate-limit wait runs once
per loop iteration for every ID, including IDs skipped because they are
already in the processed-ID set. Running over the single, already-processed
ID 5: the iteration performs no sleep at all (the skip at lines 189-191 does
`continue` without `time.sleep`), so the trace contains zero sleep events. -/
theorem C7_counterexample :
    process_artworks envMixed (.array [5]) true 10 ⟨[], [some 5]⟩ =
      ([Event.save], .ok ⟨[], [some 5]⟩) ∧
    (Event.sleep ∉ ([Event.save] : List Event)) := by
  refine ⟨rfl, by decide⟩

/-- Claim C7, amended: the rate-limit wait is performed exactly once per
loop iteration for every ID whose iteration runs the fetch stage and
completes without an exception (fetch failure, ineligibility or success:
lines 200, 206, 211, 230), but NOT for IDs skipped because they are already
in the processed-ID set — that branch (lines 189-191) continues without
sleeping. -/
theorem C7_amended_theorem (env : Env) (dl : Bool) (f : Nat) (st : ScraperState)
    (id : Int) :
    (some id ∈ st.processed_ids →
      (process_step env dl f st id).1.count Event.sleep = 0) ∧
    (∀ ev st', some id ∉ st.processed_ids →
      process_step env dl f st id = (ev, .ok st') → ev.count Event.sleep = 1) := by
  rcases process_step_cases env dl f st id with ⟨hmem, heq⟩ | ⟨hmem, hcase⟩
  · constructor
    · intro _
      rw [heq]
      rfl
    · intro ev st' hnm _
      exact absurd hmem hnm
  · constructor
    · intro hi
      exact absurd hi hmem
    · intro ev st' _ h
      rcases hcase with heq | ⟨e, heq⟩ | ⟨hf, heq⟩ | ⟨raw, loc, ev0, hev0, heq⟩
      · rw [heq] at h
        obtain ⟨rfl, -⟩ : [Event.fetch id, Event.sleep] = ev ∧ st = st' := by
          simpa using h
        simp
      · rw [heq] at h; simp at h
      · rw [heq] at h; simp at h
      · rw [heq] at h
        obtain ⟨rfl, -⟩ : ev0 = ev ∧ _ = st' := by simpa using h
        rcases hev0 with rfl | rfl <;> simp

/-- Claim C7, witness: the amended theorem applied to the already-processed
ID 5 (no sleep) and to the unprocessed ID 9 whose fetch fails (one sleep). -/
theorem C7_amended_witness :
    (process_step envMixed true 10 ⟨[], [some 5]⟩ 5).1.count Event.sleep = 0 ∧
    ([Event.fetch 9, Event.sleep] : List Event).count Event.sleep = 1 := by
  refine ⟨(C7_amended_theorem envMixed true 10 ⟨[], [some 5]⟩ 5).1 (by simp),
          (C7_amended_theorem envMixed true 10 ⟨[], []⟩ 9).2
            [Event.fetch 9, Event.sleep] ⟨[], []⟩ (by simp) rfl⟩

/-- Claim C10: with save_frequency = 0 and download disabled, the first
accepted record reaches the checkpoint decision `len(self.metadata) %
save_frequency` (line 226), whose modulo by zero raises ZeroDivisionError
and aborts the run right after the append events; process_artworks
(lines 172-179) accepts the zero interval without any guard. -/
theorem C10_theorem (env : Env) (st : ScraperState) (id : Int) (raw : RawRecord)
    (rest : List Int)
    (hmem : some id ∉ st.processed_ids)
    (hfetch : env.fetch id = some raw)
    (hpub : raw.isPublicDomain = some true)
    (himg : raw.primaryImage.getD "" ≠ "") :
    process_artworks env (.array (id :: rest)) false 0 st =
      ([Event.fetch id, Event.append id], .error .zeroDivisionError) := by
  have hstep : process_step env false 0 st id =
      ([Event.fetch id, Event.append id], .error .zeroDivisionError) := by
    simp [process_step, hmem, hfetch, hpub, himg]
  simp [process_artworks, load_object_ids, process_loop, hstep]

/-- Claim C10, witness: the theorem applied to the concrete world envC1 and
the ID list containing only 1, whose record is accepted. -/
theorem C10_witness :
    process_artworks envC1 (.array [1]) false 0 ⟨[], []⟩ =
      ([Event.fetch 1, Event.append 1], .error .zeroDivisionError) :=
  C10_theorem envC1 ⟨[], []⟩ 1 rawC1 [] (by simp) rfl rfl (by decide)

end MetScraper
